import Mathlib

/-!
Verification development for the screenshot-assistant repository.

Shallow embedding of the decision logic of the source:
  - `config_manager.py` : the dot-path configuration store (`get` / `set`)
    and the credential operations `get_api_key`, `remove_api_key`,
    `rotate_to_next_key`.
  - `gemini_integration.py` : quota-error classification
    (`_is_quota_error`), key rotation (`_try_rotate_key`) and the retry
    controller `analyze_screenshot_sync`.
  - `main.py` : the queue-drain step of `_process_screenshot` and the
    `on_hotkey_pressed` dispatch guard of the orchestrator.

Machine conventions: Python list indexing is modelled by `pyGet`
(negative indices count from the end, out of range is `Option.none`,
standing for a raised IndexError); fallible Python code returns
`Option`; the persisted configuration writes of `self.set(...)` are
modelled as ordinary state updates (persistence itself is an external
collaborator per the specification).
-/

/-- Python list indexing `l[i]` for an int index: a negative index counts
from the end; an index out of range raises, modelled as `Option.none`. -/
def pyGet {α : Type} (l : List α) (i : Int) : Option α :=
  let j : Int := if i < 0 then (l.length : Int) + i else i
  if 0 ≤ j then l.get? j.toNat else Option.none

/-- Python `str.split` with a one-character separator, on the character
list of the string: `split c "" = [[]]`, separators delimit (possibly
empty) segments. -/
def pySplitChar (sep : Char) : List Char → List (List Char)
  | [] => [[]]
  | c :: rest =>
    if c = sep then [] :: pySplitChar sep rest
    else
      match pySplitChar sep rest with
      | [] => [[c]]
      | h :: t => (c :: h) :: t

/-- Python `key.split(sep)` for a one-character separator, returning
strings. -/
def py_split (s : String) (sep : Char) : List String :=
  (pySplitChar sep s.data).map (fun l => String.mk l)

/-! ## Configuration store (`config_manager.py`, `ConfigManager.get` / `ConfigManager.set`)

The persisted configuration is a JSON-like nested structure; the root
`self.config` is a dictionary. Dictionaries are modelled as ordered
association lists with Python assignment semantics: updating an existing
key replaces it in place, a new key is appended at the end. -/

/-- JSON-like configuration values (the possible contents of
`self.config` in `config_manager.py`). -/
inductive PyVal where
  | str : String → PyVal
  | int : Int → PyVal
  | bool : Bool → PyVal
  | list : List PyVal → PyVal
  | dict : List (String × PyVal) → PyVal
  | null : PyVal

/-- Python dictionary read: `d[k]` / the membership test `k in d`.
`Option.none` means the key is absent. -/
def dict_lookup : List (String × PyVal) → String → Option PyVal
  | [], _ => Option.none
  | (k, v) :: rest, key => if k = key then some v else dict_lookup rest key

/-- Python dictionary assignment `d[k] = v`: replaces the first binding
of `k` if present, otherwise appends a new binding at the end. -/
def dict_set : List (String × PyVal) → String → PyVal → List (String × PyVal)
  | [], key, v => [(key, v)]
  | (k, w) :: rest, key, v =>
    if k = key then (k, v) :: rest else (k, w) :: dict_set rest key v

/-- The loop of `ConfigManager.get` (config_manager.py lines 46-55):
walks the already-split key path; a missing key or a non-dictionary
node yields the default. -/
def config_get_loop (default : PyVal) : PyVal → List String → PyVal
  | value, [] => value
  | value, k :: rest =>
    match value with
    | PyVal.dict d =>
      match dict_lookup d k with
      | some v => config_get_loop default v rest
      | Option.none => default
    | _ => default

/-- `ConfigManager.get(key, default)` (config_manager.py lines 36-55). -/
def config_get (config : List (String × PyVal)) (key : String) (default : PyVal) : PyVal :=
  config_get_loop default (PyVal.dict config) (py_split key '.')

/-- The walk of `ConfigManager.set` (config_manager.py lines 64-75) on an
already-split key path: navigates to the parent dictionary, creating
empty dictionaries for absent intermediate segments, then assigns the
final segment. Descending into an existing non-dictionary intermediate
raises in Python, modelled as `Option.none`. The `[]` path never arises
from `key.split(.)`. -/
def config_set_walk : List (String × PyVal) → List String → PyVal → Option (List (String × PyVal))
  | _, [], _ => Option.none
  | d, [k], v => some (dict_set d k v)
  | d, k :: k2 :: rest, v =>
    match dict_lookup d k with
    | Option.none =>
      (config_set_walk [] (k2 :: rest) v).map (fun sub => dict_set d k (PyVal.dict sub))
    | some (PyVal.dict sub) =>
      (config_set_walk sub (k2 :: rest) v).map (fun sub2 => dict_set d k (PyVal.dict sub2))
    | some _ => Option.none

/-- `ConfigManager.set(key, value)` (config_manager.py lines 57-75),
returning the updated root dictionary, or `Option.none` when the walk
raises. -/
def config_set (config : List (String × PyVal)) (key : String) (v : PyVal) : Option (List (String × PyVal)) :=
  config_set_walk config (py_split key '.') v

/-! ## Credential operations (`config_manager.py`)

The credential state is the relevant slice of the configuration:
`gemini.api_keys`, `gemini.current_key_index` and
`gemini.auto_rotate_on_quota_error`; reads of `self.get` on those paths
and the persisting writes of `self.set` are inlined as field access and
field update. The index is an `Int` because the persisted JSON value is
an arbitrary integer. -/

/-- The credential slice of the persisted configuration. -/
structure GeminiConfig where
  api_keys : List String
  current_key_index : Int
  auto_rotate_on_quota_error : Bool
deriving DecidableEq

/-- `ConfigManager.get_api_key` (config_manager.py lines 123-132).
`Option.none` models a raised IndexError (possible only for a negative
stored index reaching past the front of the list). -/
def get_api_key (c : GeminiConfig) : Option (String × GeminiConfig) :=
  if c.api_keys.isEmpty then some ("", c)
  else if (c.api_keys.length : Int) ≤ c.current_key_index then
    some (c.api_keys.headI, { c with current_key_index := 0 })
  else
    (pyGet c.api_keys c.current_key_index).map (fun k => (k, c))

/-- `ConfigManager.remove_api_key` (config_manager.py lines 149-162):
removes the first occurrence if present, then resets the stored index to
0 when it is not below the new length. -/
def remove_api_key (c : GeminiConfig) (api_key : String) : GeminiConfig :=
  if api_key ∈ c.api_keys then
    if ((c.api_keys.erase api_key).length : Int) ≤ c.current_key_index then
      { c with api_keys := c.api_keys.erase api_key, current_key_index := 0 }
    else
      { c with api_keys := c.api_keys.erase api_key }
  else c

/-- `ConfigManager.rotate_to_next_key` (config_manager.py lines 164-178):
with fewer than two keys it returns `get_api_key`; otherwise it advances
the index by one modulo the length (Python `%` on ints and `Int.emod`
agree for a positive modulus), persists, and returns the key at the new
index. -/
def rotate_to_next_key (c : GeminiConfig) : Option (String × GeminiConfig) :=
  if c.api_keys.length ≤ 1 then get_api_key c
  else
    (pyGet c.api_keys ((c.current_key_index + 1) % (c.api_keys.length : Int))).map
      (fun k => (k, { c with current_key_index := (c.current_key_index + 1) % (c.api_keys.length : Int) }))

/-- `ConfigManager.is_auto_rotate_enabled` (config_manager.py lines
180-182). -/
def is_auto_rotate_enabled (c : GeminiConfig) : Bool :=
  c.auto_rotate_on_quota_error

/-- The state component of one `rotate_to_next_key` call (the returned
key is discarded); the unreachable raising branch keeps the state. -/
def rotate_state (c : GeminiConfig) : GeminiConfig :=
  match rotate_to_next_key c with
  | some p => p.2
  | Option.none => c

/-- The configuration state after n successive `rotate_to_next_key`
calls. -/
def rotate_iter : Nat → GeminiConfig → GeminiConfig
  | 0, c => c
  | n + 1, c => rotate_iter n (rotate_state c)

/-! ## Quota classification and key rotation (`gemini_integration.py`) -/

/-- Python substring test `pat in l` on character lists. -/
def substringIn (pat : List Char) : List Char → Bool
  | [] => pat.isEmpty
  | c :: rest => pat.isPrefixOf (c :: rest) || substringIn pat rest

/-- The fixed quota-indicator phrases of `_is_quota_error`
(gemini_integration.py lines 52-59). -/
def quota_indicators : List String :=
  ["quota", "rate limit", "resource exhausted", "429", "too many requests", "exceeded"]

/-- `GeminiIntegration._is_quota_error` (gemini_integration.py lines
42-60): case-insensitive substring match of the indicators against the
error text (`str(error).lower()` modelled by per-character lowering). -/
def is_quota_error (e : String) : Bool :=
  let error_str := e.data.map Char.toLower
  quota_indicators.any (fun indicator => substringIn indicator.data error_str)

/-- The mutable state of a `GeminiIntegration` instance: the credential
configuration plus the bound client. `client = some k` means
`self.client` is a client constructed with key `k` and
`self.current_api_key == k` (the two attributes are always set together
by `_initialize_client`); `client = Option.none` means no client is
bound. The client constructor itself is modelled as always succeeding. -/
structure GeminiIntegration where
  config : GeminiConfig
  client : Option String
deriving DecidableEq

/-- `GeminiIntegration._try_rotate_key` (gemini_integration.py lines
62-91). Note that when rotation lands on the currently bound key the
advanced cursor has already been persisted even though `False` is
returned. The `Option.none` branch of `rotate_to_next_key` is
unreachable here because it is guarded by the length check. -/
def try_rotate_key (s : GeminiIntegration) : Bool × GeminiIntegration :=
  if is_auto_rotate_enabled s.config = false then (false, s)
  else if s.config.api_keys.length ≤ 1 then (false, s)
  else
    match rotate_to_next_key s.config with
    | some (next_key, config2) =>
      if s.client = some next_key then (false, { s with config := config2 })
      else (true, { s with config := config2, client := some next_key })
    | Option.none => (false, s)

/-- The message returned by `analyze_screenshot_sync` when no client is
bound (gemini_integration.py line 166). -/
def not_initialized_msg : String :=
  "Gemini client not initialized. Please set API key."

/-- `GeminiIntegration.analyze_screenshot_sync` (gemini_integration.py
lines 149-195). The remote boundary
`self.client.models.generate_content` is the parameter `call`, mapping
the bound key to either the response text or a raised error text. The
third component of the result is instrumentation recording the key bound
for each attempted remote call, in order; the first two components are
the returned response text and the final object state exactly as in the
source. -/
def analyze_screenshot_sync (call : String → Except String String) (retry_count : Nat) (s : GeminiIntegration) : String × GeminiIntegration × List String :=
  match s.client with
  | Option.none => (not_initialized_msg, s, [])
  | some key =>
    match call key with
    | Except.ok text => (text, s, [key])
    | Except.error e =>
      if is_quota_error e = true ∧ retry_count < s.config.api_keys.length then
        if (try_rotate_key s).1 then
          ((analyze_screenshot_sync call (retry_count + 1) (try_rotate_key s).2).1,
            (analyze_screenshot_sync call (retry_count + 1) (try_rotate_key s).2).2.1,
            key :: (analyze_screenshot_sync call (retry_count + 1) (try_rotate_key s).2).2.2)
        else ("Error analyzing screenshot: " ++ e, (try_rotate_key s).2, [key])
      else ("Error analyzing screenshot: " ++ e, s, [key])
termination_by s.config.api_keys.length - retry_count
decreasing_by
  all_goals rename_i hq _
  all_goals
    (have hkeys : ((try_rotate_key s).2).config.api_keys = s.config.api_keys := by
      unfold try_rotate_key rotate_to_next_key get_api_key
      repeat' split
      all_goals try rfl
      all_goals
        (rename_i heq hcl
         rcases Option.map_eq_some'.mp heq with ⟨k, hk, hmap⟩
         cases hmap
         rfl)
     rw [hkeys]
     omega)

/-! ## Queue drain and dispatch guard (`main.py`) -/

/-- The possible shapes of the Python variable `images_to_process` in
`_process_screenshot`: either one bare image or a list of images. -/
inductive ImagesToProcess (α : Type) where
  | single : α → ImagesToProcess α
  | many : List α → ImagesToProcess α
deriving DecidableEq

/-- The drain step of `AIAssistant._process_screenshot` (main.py lines
183-193): a non-empty queue is snapshot and cleared without calling the
capture function; an empty queue triggers one fresh capture, whose bare
result becomes `images_to_process`. The third component counts the
invocations of `capture_fn`. -/
def drain_or_capture {α : Type} (image_queue : List α) (capture_fn : Unit → α) : ImagesToProcess α × List α × Nat :=
  if image_queue.isEmpty = false then (ImagesToProcess.many image_queue, [], 0)
  else (ImagesToProcess.single (capture_fn ()), image_queue, 1)

/-- The dispatch-relevant state of the orchestrator `AIAssistant`
(main.py lines 73-74). -/
structure AIAssistantState where
  is_enabled : Bool
  is_processing : Bool
deriving DecidableEq

/-- `AIAssistant.on_hotkey_pressed` (main.py lines 156-170): the guard of
the analyze trigger. The returned flag records whether a worker thread
was spawned; the handler itself mutates no state. -/
def on_hotkey_pressed (s : AIAssistantState) : AIAssistantState × Bool :=
  if s.is_enabled = false then (s, false)
  else if s.is_processing = true then (s, false)
  else (s, true)

/-- The first statement of the spawned worker `_process_screenshot`
(main.py line 181). -/
def process_begin (s : AIAssistantState) : AIAssistantState :=
  { s with is_processing := true }

/-- The guaranteed cleanup of `_process_screenshot` (main.py line 234,
the `finally` block). -/
def process_end (s : AIAssistantState) : AIAssistantState :=
  { s with is_processing := false }

/-- The observable events of one run of the orchestrator, at the logical
atomicity of the specification: an analyze trigger (hotkey press) whose
spawned worker immediately executes its first statement, and the
completion of an active worker. -/
inductive OrchEvent where
  | analyze_trigger : OrchEvent
  | worker_done : OrchEvent
deriving DecidableEq

/-- A run configuration: the orchestrator state plus the number of
logically active analyze workers. -/
structure OrchRun where
  state : AIAssistantState
  active_workers : Nat
deriving DecidableEq

/-- One event of a run: a trigger goes through the `on_hotkey_pressed`
guard and, only when a worker is spawned, that worker begins
(incrementing the active count and setting the processing flag); a
completion runs the `finally` cleanup of an active worker. -/
def orch_step (r : OrchRun) : OrchEvent → OrchRun
  | OrchEvent.analyze_trigger =>
    let p := on_hotkey_pressed r.state
    if p.2 then { state := process_begin p.1, active_workers := r.active_workers + 1 }
    else { state := p.1, active_workers := r.active_workers }
  | OrchEvent.worker_done =>
    if r.active_workers = 0 then r
    else { state := process_end r.state, active_workers := r.active_workers - 1 }

/-- A whole run from a starting configuration. -/
def orch_run (r : OrchRun) (events : List OrchEvent) : OrchRun :=
  events.foldl orch_step r

/-- The startup configuration of `AIAssistant.__init__` (main.py lines
73-74): not processing, no active worker. -/
def orch_init (enabled : Bool) : OrchRun :=
  { state := { is_enabled := enabled, is_processing := false }, active_workers := 0 }

/-- The single-in-flight invariant of the orchestrator: at most one
analyze worker is logically active, exactly when the processing flag is
set. -/
def orch_inv (r : OrchRun) : Prop :=
  r.active_workers ≤ 1 ∧ (r.active_workers = 1 ↔ r.state.is_processing = true)

/-! ## Helper lemmas -/

theorem pyGet_of_nonneg {α : Type} (l : List α) (i : Int) (h0 : 0 ≤ i) : pyGet l i = l.get? i.toNat := by
  simp only [pyGet]
  rw [if_neg (not_lt.mpr h0), if_pos h0]

theorem pyGet_some_of_lt {α : Type} (l : List α) (i : Int) (h0 : 0 ≤ i) (h1 : i < (l.length : Int)) : ∃ k, pyGet l i = some k ∧ k ∈ l := by
  rw [pyGet_of_nonneg l i h0]
  have hlt : i.toNat < l.length := by omega
  refine ⟨l.get ⟨i.toNat, hlt⟩, ?_, List.get_mem l i.toNat hlt⟩
  exact List.get?_eq_get hlt

theorem get_api_key_in_range (c : GeminiConfig) (hne : c.api_keys ≠ []) (h1 : c.current_key_index < (c.api_keys.length : Int)) :
    get_api_key c = (pyGet c.api_keys c.current_key_index).map (fun k => (k, c)) := by
  unfold get_api_key
  rw [if_neg (by simpa [List.isEmpty_iff] using hne), if_neg (not_le.mpr h1)]

theorem dict_lookup_dict_set_self (d : List (String × PyVal)) (k : String) (v : PyVal) : dict_lookup (dict_set d k v) k = some v := by
  induction d with
  | nil => simp [dict_set, dict_lookup]
  | cons p rest ih =>
    obtain ⟨k1, w⟩ := p
    by_cases hk : k1 = k
    · simp [dict_set, dict_lookup, hk]
    · simp [dict_set, dict_lookup, hk, ih]

theorem config_walk_roundtrip (v : PyVal) : ∀ (ks : List String) (d d2 : List (String × PyVal)) (default : PyVal), config_set_walk d ks v = some d2 → config_get_loop default (PyVal.dict d2) ks = v := by
  intro ks
  induction ks with
  | nil =>
    intro d d2 default h
    simp [config_set_walk] at h
  | cons k rest ih =>
    intro d d2 default h
    cases rest with
    | nil =>
      simp only [config_set_walk, Option.some.injEq] at h
      subst h
      simp [config_get_loop, dict_lookup_dict_set_self]
    | cons k2 rest2 =>
      unfold config_set_walk at h
      cases hl : dict_lookup d k with
      | none =>
        rw [hl] at h
        rcases Option.map_eq_some'.mp h with ⟨sub, hsub, hd2⟩
        subst hd2
        simpa only [config_get_loop, dict_lookup_dict_set_self] using ih [] sub default hsub
      | some val =>
        rw [hl] at h
        cases val with
        | dict sub =>
          rcases Option.map_eq_some'.mp h with ⟨sub2, hsub2, hd2⟩
          subst hd2
          simpa only [config_get_loop, dict_lookup_dict_set_self] using ih sub sub2 default hsub2
        | str a => exact Option.noConfusion h
        | int a => exact Option.noConfusion h
        | bool a => exact Option.noConfusion h
        | list a => exact Option.noConfusion h
        | null => exact Option.noConfusion h

/-! ## Claim theorems -/

/-- C2: for every non-empty capture queue and every fresh-capture
function, one drain step of the analyze pipeline returns exactly the
queued images in insertion order, leaves the queue empty afterwards, and
never invokes the fresh-capture function (the capture count is 0 and the
result does not depend on `capture_fn`). -/
theorem c2_drain_nonempty {α : Type} (image_queue : List α) (capture_fn : Unit → α) (h : image_queue ≠ []) :
    drain_or_capture image_queue capture_fn = (ImagesToProcess.many image_queue, [], 0) := by
  unfold drain_or_capture
  rw [if_pos]
  simpa [List.isEmpty_iff] using h

theorem c2_drain_nonempty_witness :
    ([1, 2] : List Nat) ≠ [] ∧
    drain_or_capture ([1, 2] : List Nat) (fun _ => 3) = (ImagesToProcess.many [1, 2], [], 0) :=
  ⟨by decide, c2_drain_nonempty [1, 2] (fun _ => 3) (by decide)⟩

/-- C8, counterexample: with an empty queue the drain step binds the
bare result of the one fresh capture, not a one-element sequence of
images; the single image 7 is distinct from the list value `[7]`. -/
theorem c8_counterexample :
    drain_or_capture ([] : List Nat) (fun _ => 7) = (ImagesToProcess.single 7, [], 1) ∧
    ImagesToProcess.single 7 ≠ ImagesToProcess.many [7] :=
  ⟨by decide, by decide⟩

/-- C8, amended: for every state in which the capture queue is empty,
one drain step invokes the fresh-capture function exactly once and
returns its single result directly (as a bare image, not wrapped in a
sequence), leaving the queue empty. -/
theorem c8_drain_empty {α : Type} (capture_fn : Unit → α) :
    drain_or_capture ([] : List α) capture_fn = (ImagesToProcess.single (capture_fn ()), [], 1) := by
  simp [drain_or_capture]

/-- C9, counterexample: with key list of length 1 and stored index -2,
`get_api_key` raises an IndexError (Python indexing from the end walks
past the front of the list), so it is not true that it never raises for
every stored configuration. -/
theorem c9_counterexample :
    get_api_key { api_keys := ["k1"], current_key_index := -2, auto_rotate_on_quota_error := true } = Option.none := by
  decide

/-- C9, amended: for every stored configuration whose current_key_index
is a nonnegative integer, get_api_key never raises: empty list gives the
empty string with the state unchanged, an index at or past the length
resets the persisted index to 0 and returns the first key, and an
in-range index returns the key at the stored index; the result is a
member of the key list whenever the list is non-empty. -/
theorem c9_get_api_key_total (c : GeminiConfig) (h : 0 ≤ c.current_key_index) :
    (get_api_key c).isSome = true ∧
    (c.api_keys = [] → get_api_key c = some ("", c)) ∧
    (c.api_keys ≠ [] → (c.api_keys.length : Int) ≤ c.current_key_index →
      get_api_key c = some (c.api_keys.headI, { c with current_key_index := 0 }) ∧
        c.api_keys.headI ∈ c.api_keys) ∧
    (c.current_key_index < (c.api_keys.length : Int) →
      get_api_key c = (pyGet c.api_keys c.current_key_index).map (fun k => (k, c))) ∧
    (c.api_keys ≠ [] → ((get_api_key c).map (fun p => p.1)).getD "" ∈ c.api_keys) := by
  by_cases hne : c.api_keys = []
  · refine ⟨?_, fun _ => ?_, fun hc => absurd hne hc, fun hlt => ?_, fun hc => absurd hne hc⟩
    · simp [get_api_key, hne]
    · simp [get_api_key, hne]
    · exfalso
      rw [hne] at hlt
      simp at hlt
      omega
  · by_cases hge : (c.api_keys.length : Int) ≤ c.current_key_index
    · have hcons : c.api_keys.headI ∈ c.api_keys := by
        cases hk : c.api_keys with
        | nil => exact absurd hk hne
        | cons a t => simp [List.headI]
      have heq : get_api_key c = some (c.api_keys.headI, { c with current_key_index := 0 }) := by
        unfold get_api_key
        rw [if_neg (by simpa [List.isEmpty_iff] using hne), if_pos hge]
      refine ⟨by simp [heq], fun hc => absurd hc hne, fun _ _ => ⟨heq, hcons⟩,
        fun hlt => absurd hge (not_le.mpr hlt), fun _ => ?_⟩
      simp [heq, hcons]
    · have hlt : c.current_key_index < (c.api_keys.length : Int) := not_le.mp hge
      have heq := get_api_key_in_range c hne hlt
      obtain ⟨k, hk, hmem⟩ := pyGet_some_of_lt c.api_keys c.current_key_index h hlt
      refine ⟨by simp [heq, hk], fun hc => absurd hc hne, fun _ hge2 => absurd hge2 hge,
        fun _ => heq, fun _ => ?_⟩
      simp [heq, hk, hmem]

theorem c9_get_api_key_total_witness :
    (0 : Int) ≤ (5 : Int) ∧
    (get_api_key { api_keys := ["a", "b"], current_key_index := 5, auto_rotate_on_quota_error := true }).isSome = true :=
  ⟨by decide, (c9_get_api_key_total { api_keys := ["a", "b"], current_key_index := 5, auto_rotate_on_quota_error := true } (by decide)).1⟩

/-- C10: for every dot-separated key path whose intermediate segments
are absent or map to dictionaries in the current configuration (exactly
the cases in which the set walk succeeds), and every value v, set
followed by get on the same path returns v, for every default. -/
theorem c10_set_get_roundtrip (config : List (String × PyVal)) (key : String) (v : PyVal) (config2 : List (String × PyVal)) (default : PyVal) (h : config_set config key v = some config2) :
    config_get config2 key default = v :=
  config_walk_roundtrip v (py_split key '.') config config2 default h

theorem c10_set_get_roundtrip_witness :
    config_set [] "gemini.model" (PyVal.str "m") = some [("gemini", PyVal.dict [("model", PyVal.str "m")])] ∧
    config_get [("gemini", PyVal.dict [("model", PyVal.str "m")])] "gemini.model" PyVal.null = PyVal.str "m" :=
  ⟨rfl, c10_set_get_roundtrip [] "gemini.model" (PyVal.str "m") [("gemini", PyVal.dict [("model", PyVal.str "m")])] PyVal.null rfl⟩

theorem orch_step_inv (r : OrchRun) (e : OrchEvent) (h : orch_inv r) : orch_inv (orch_step r e) := by
  obtain ⟨h1, h2⟩ := h
  cases e with
  | analyze_trigger =>
    unfold orch_step on_hotkey_pressed
    by_cases he : r.state.is_enabled = false
    · rw [if_pos he]
      exact ⟨h1, h2⟩
    · rw [if_neg he]
      by_cases hp : r.state.is_processing = true
      · rw [if_pos hp]
        exact ⟨h1, h2⟩
      · rw [if_neg hp]
        have hz : r.active_workers = 0 := by
          have hne : ¬ r.active_workers = 1 := fun hh => hp (h2.mp hh)
          omega
        refine ⟨?_, ?_⟩
        · show r.active_workers + 1 ≤ 1
          omega
        · show r.active_workers + 1 = 1 ↔ true = true
          simp [hz]
  | worker_done =>
    unfold orch_step
    by_cases hz : r.active_workers = 0
    · rw [if_pos hz]
      exact ⟨h1, h2⟩
    · rw [if_neg hz]
      refine ⟨?_, ?_⟩
      · show r.active_workers - 1 ≤ 1
        omega
      · show r.active_workers - 1 = 1 ↔ false = true
        simp
        omega

theorem orch_run_inv (events : List OrchEvent) : ∀ (r : OrchRun), orch_inv r → orch_inv (orch_run r events) := by
  induction events with
  | nil => intro r h; exact h
  | cons e t ih =>
    intro r h
    exact ih (orch_step r e) (orch_step_inv r e h)

/-- C6: whenever the processing flag is set or the assistant is
disabled, a further analyze trigger through on_hotkey_pressed is a
complete no-op (state unchanged, no worker spawned); and in every run
from the startup configuration at most one analyze worker is logically
active at a time. -/
theorem c6_single_worker :
    (∀ s : AIAssistantState, s.is_enabled = false ∨ s.is_processing = true →
      on_hotkey_pressed s = (s, false)) ∧
    (∀ (enabled : Bool) (events : List OrchEvent),
      (orch_run (orch_init enabled) events).active_workers ≤ 1) := by
  constructor
  · intro s hs
    unfold on_hotkey_pressed
    rcases hs with hs | hs
    · rw [if_pos hs]
    · by_cases he : s.is_enabled = false
      · rw [if_pos he]
      · rw [if_neg he, if_pos hs]
  · intro enabled events
    have hinit : orch_inv (orch_init enabled) := by
      constructor
      · simp [orch_init]
      · simp [orch_init]
    exact (orch_run_inv events (orch_init enabled) hinit).1

theorem c6_single_worker_witness :
    on_hotkey_pressed { is_enabled := true, is_processing := true } =
      ({ is_enabled := true, is_processing := true }, false) ∧
    (orch_run (orch_init true)
        [OrchEvent.analyze_trigger, OrchEvent.analyze_trigger, OrchEvent.worker_done]).active_workers ≤ 1 :=
  ⟨c6_single_worker.1 { is_enabled := true, is_processing := true } (Or.inr rfl),
    c6_single_worker.2 true [OrchEvent.analyze_trigger, OrchEvent.analyze_trigger, OrchEvent.worker_done]⟩

theorem rotate_state_of_two_le (c : GeminiConfig) (h2 : 2 ≤ c.api_keys.length) :
    rotate_state c = { c with current_key_index := (c.current_key_index + 1) % (c.api_keys.length : Int) } := by
  have hpos : (0 : Int) < (c.api_keys.length : Int) := by exact_mod_cast Nat.lt_of_lt_of_le Nat.zero_lt_two h2
  have h0 : 0 ≤ (c.current_key_index + 1) % (c.api_keys.length : Int) :=
    Int.emod_nonneg _ (by omega)
  have h1 : (c.current_key_index + 1) % (c.api_keys.length : Int) < (c.api_keys.length : Int) :=
    Int.emod_lt_of_pos _ hpos
  obtain ⟨k, hk, _⟩ := pyGet_some_of_lt c.api_keys _ h0 h1
  unfold rotate_state rotate_to_next_key
  rw [if_neg (by omega), hk]
  rfl

theorem rotate_iter_succ_of_two_le (c : GeminiConfig) (h2 : 2 ≤ c.api_keys.length) : ∀ n : Nat,
    rotate_iter (n + 1) c =
      { c with current_key_index := (c.current_key_index + (n + 1 : Nat)) % (c.api_keys.length : Int) } := by
  suffices hgen : ∀ (n : Nat) (c : GeminiConfig), 2 ≤ c.api_keys.length →
      rotate_iter (n + 1) c =
        { c with current_key_index := (c.current_key_index + (n + 1 : Nat)) % (c.api_keys.length : Int) } by
    intro n
    exact hgen n c h2
  intro n
  induction n with
  | zero =>
    intro c hc
    show rotate_iter 0 (rotate_state c) = _
    rw [rotate_iter, rotate_state_of_two_le c hc]
    simp
  | succ m ih =>
    intro c hc
    show rotate_iter (m + 1) (rotate_state c) = _
    rw [rotate_state_of_two_le c hc]
    rw [ih _ (by simpa using hc)]
    simp only
    congr 1
    rw [Int.emod_add_emod]
    congr 1
    push_cast
    ring

/-- C3: with fewer than two keys and an in-range (or irrelevant, when
the list is empty) cursor, rotate_to_next_key returns exactly what the
current-credential accessor returns and the state, cursor included, is
unchanged; with N greater than or equal to 2 keys every call moves
current_key_index to (old + 1) mod N and returns the key at that new
index; and from an in-range cursor N successive calls return the state,
hence the cursor and current credential, to the original. -/
theorem c3_rotate_contract :
    (∀ c : GeminiConfig, c.api_keys.length < 2 →
      (c.api_keys = [] ∨ (0 ≤ c.current_key_index ∧ c.current_key_index < (c.api_keys.length : Int))) →
      rotate_to_next_key c = get_api_key c ∧ Option.map Prod.snd (get_api_key c) = some c) ∧
    (∀ c : GeminiConfig, 2 ≤ c.api_keys.length →
      Option.map Prod.snd (rotate_to_next_key c) =
        some { c with current_key_index := (c.current_key_index + 1) % (c.api_keys.length : Int) } ∧
      Option.map Prod.fst (rotate_to_next_key c) =
        pyGet c.api_keys ((c.current_key_index + 1) % (c.api_keys.length : Int))) ∧
    (∀ c : GeminiConfig, 2 ≤ c.api_keys.length → 0 ≤ c.current_key_index →
      c.current_key_index < (c.api_keys.length : Int) →
      rotate_iter c.api_keys.length c = c) := by
  refine ⟨?_, ?_, ?_⟩
  · intro c hlt hc
    have heq : rotate_to_next_key c = get_api_key c := by
      unfold rotate_to_next_key
      rw [if_pos (by omega)]
    refine ⟨heq, ?_⟩
    rcases hc with hc | ⟨hc0, hc1⟩
    · simp [get_api_key, hc]
    · rw [get_api_key_in_range c (by intro hnil; rw [hnil] at hc1; simp at hc1; omega) hc1]
      obtain ⟨k, hk, _⟩ := pyGet_some_of_lt c.api_keys c.current_key_index hc0 hc1
      simp [hk]
  · intro c h2
    have hpos : (0 : Int) < (c.api_keys.length : Int) := by exact_mod_cast Nat.lt_of_lt_of_le Nat.zero_lt_two h2
    have h0 : 0 ≤ (c.current_key_index + 1) % (c.api_keys.length : Int) :=
      Int.emod_nonneg _ (by omega)
    have h1 : (c.current_key_index + 1) % (c.api_keys.length : Int) < (c.api_keys.length : Int) :=
      Int.emod_lt_of_pos _ hpos
    obtain ⟨k, hk, _⟩ := pyGet_some_of_lt c.api_keys _ h0 h1
    unfold rotate_to_next_key
    rw [if_neg (by omega), hk]
    simp
  · intro c h2 hc0 hc1
    obtain ⟨m, hm⟩ : ∃ m, c.api_keys.length = m + 1 := ⟨c.api_keys.length - 1, by omega⟩
    rw [hm, rotate_iter_succ_of_two_le c h2 m]
    have hidx : (c.current_key_index + ((m + 1 : Nat) : Int)) % (c.api_keys.length : Int) =
        c.current_key_index := by
      have hlen : ((m + 1 : Nat) : Int) = (c.api_keys.length : Int) := by rw [hm]
      rw [hlen,
        show c.current_key_index + (c.api_keys.length : Int) =
          c.current_key_index + (c.api_keys.length : Int) * 1 by ring,
        Int.add_mul_emod_self_left]
      exact Int.emod_eq_of_lt hc0 hc1
    rw [hidx]

theorem c3_rotate_contract_witness :
    rotate_iter (["a", "b", "c"] : List String).length
        { api_keys := ["a", "b", "c"], current_key_index := 1, auto_rotate_on_quota_error := true } =
      { api_keys := ["a", "b", "c"], current_key_index := 1, auto_rotate_on_quota_error := true } ∧
    rotate_to_next_key { api_keys := ["k1"], current_key_index := 0, auto_rotate_on_quota_error := true } =
      get_api_key { api_keys := ["k1"], current_key_index := 0, auto_rotate_on_quota_error := true } :=
  ⟨c3_rotate_contract.2.2
      { api_keys := ["a", "b", "c"], current_key_index := 1, auto_rotate_on_quota_error := true }
      (by decide) (by decide) (by decide),
    (c3_rotate_contract.1
      { api_keys := ["k1"], current_key_index := 0, auto_rotate_on_quota_error := true }
      (by decide) (Or.inr (by decide))).1⟩

theorem analyze_screenshot_sync_shape (call : String → Except String String) (retry_count : Nat) (s : GeminiIntegration) :
    (analyze_screenshot_sync call retry_count s).1 = not_initialized_msg ∨
    (∃ k t, call k = Except.ok t ∧ (analyze_screenshot_sync call retry_count s).1 = t) ∨
    (∃ k e, call k = Except.error e ∧
      (analyze_screenshot_sync call retry_count s).1 = "Error analyzing screenshot: " ++ e) := by
  induction retry_count, s using analyze_screenshot_sync.induct
  case call x => exact call x
  case case1 rc s hcl =>
    left
    unfold analyze_screenshot_sync
    rw [hcl]
  case case2 rc s key hcl text hcall =>
    right; left
    refine ⟨key, text, hcall, ?_⟩
    unfold analyze_screenshot_sync
    simp only [hcl, hcall]
  case case3 rc s key hcl e hcall hcond htr ih =>
    rcases ih with ih | ih | ih
    · left
      unfold analyze_screenshot_sync
      simp only [hcl, hcall, if_pos hcond, htr, if_true]
      exact ih
    · right; left
      obtain ⟨k, t, hk, hval⟩ := ih
      refine ⟨k, t, hk, ?_⟩
      unfold analyze_screenshot_sync
      simp only [hcl, hcall, if_pos hcond, htr, if_true]
      exact hval
    · right; right
      obtain ⟨k, e2, hk, hval⟩ := ih
      refine ⟨k, e2, hk, ?_⟩
      unfold analyze_screenshot_sync
      simp only [hcl, hcall, if_pos hcond, htr, if_true]
      exact hval
  case case4 rc s key hcl e hcall hcond htr =>
    right; right
    refine ⟨key, e, hcall, ?_⟩
    unfold analyze_screenshot_sync
    simp only [hcl, hcall, if_pos hcond]
    rw [if_neg htr]
  case case5 rc s key hcl e hcall hcond =>
    right; right
    refine ⟨key, e, hcall, ?_⟩
    unfold analyze_screenshot_sync
    simp only [hcl, hcall]
    rw [if_neg hcond]

/-- C5: for every input and every behaviour of the remote call,
analyze_screenshot_sync returns a result (the embedding is a total
function) whose response text is either the not-initialized message
(returned with unchanged state when no client is bound), the remote
response text verbatim on success, or the error text of a raised error
prefixed exactly as the source formats it, so the delivery path always
receives a result. -/
theorem c5_always_returns (call : String → Except String String) (retry_count : Nat) (s : GeminiIntegration) :
    (s.client = Option.none → analyze_screenshot_sync call retry_count s = (not_initialized_msg, s, [])) ∧
    ((analyze_screenshot_sync call retry_count s).1 = not_initialized_msg ∨
      (∃ k t, call k = Except.ok t ∧ (analyze_screenshot_sync call retry_count s).1 = t) ∨
      (∃ k e, call k = Except.error e ∧
        (analyze_screenshot_sync call retry_count s).1 = "Error analyzing screenshot: " ++ e)) := by
  constructor
  · intro hcl
    unfold analyze_screenshot_sync
    rw [hcl]
  · exact analyze_screenshot_sync_shape call retry_count s

theorem c5_always_returns_witness :
    ({ config := { api_keys := [], current_key_index := 0, auto_rotate_on_quota_error := true },
        client := Option.none } : GeminiIntegration).client = Option.none ∧
    analyze_screenshot_sync (fun _ => Except.ok "hi") 0
        { config := { api_keys := [], current_key_index := 0, auto_rotate_on_quota_error := true },
          client := Option.none } =
      (not_initialized_msg,
        { config := { api_keys := [], current_key_index := 0, auto_rotate_on_quota_error := true },
          client := Option.none }, []) :=
  ⟨rfl,
    (c5_always_returns (fun _ => Except.ok "hi") 0
      { config := { api_keys := [], current_key_index := 0, auto_rotate_on_quota_error := true },
        client := Option.none }).1 rfl⟩

/-- C4: for every raised error whose text is not classified as a quota
error, analyze_screenshot_sync returns the failure response after the
first attempt, with the whole state, cursor and bound credential
included, unchanged, and exactly one attempted call. -/
theorem c4_non_quota_single_attempt (call : String → Except String String) (retry_count : Nat) (s : GeminiIntegration) (key e : String)
    (hc : s.client = some key) (he : call key = Except.error e) (hq : is_quota_error e = false) :
    analyze_screenshot_sync call retry_count s = ("Error analyzing screenshot: " ++ e, s, [key]) := by
  unfold analyze_screenshot_sync
  simp only [hc, he]
  rw [if_neg (by simp [hq])]

theorem c4_non_quota_single_attempt_witness :
    is_quota_error "invalid argument" = false ∧
    analyze_screenshot_sync (fun _ => Except.error "invalid argument") 0
        { config := { api_keys := ["k1", "k2"], current_key_index := 0, auto_rotate_on_quota_error := true },
          client := some "k1" } =
      ("Error analyzing screenshot: " ++ "invalid argument",
        { config := { api_keys := ["k1", "k2"], current_key_index := 0, auto_rotate_on_quota_error := true },
          client := some "k1" }, ["k1"]) :=
  ⟨by decide,
    c4_non_quota_single_attempt (fun _ => Except.error "invalid argument") 0
      { config := { api_keys := ["k1", "k2"], current_key_index := 0, auto_rotate_on_quota_error := true },
        client := some "k1" }
      "k1" "invalid argument" rfl rfl (by decide)⟩

/-- C1, divergence witness: with the 2 distinct credentials k1 and k2,
auto-rotation enabled, the cursor at 0, the client bound to k1, and a
remote call that always raises the quota-classified error text "quota",
one call of analyze_screenshot_sync starting at retry_count 0 makes
three attempts, binding k1, then k2, then k1 again: the first credential
is attempted twice and the number of attempts is 3, not the credential
count 2, before the fatal-failure response is returned. -/
theorem c1_retry_bound_overshoot :
    analyze_screenshot_sync (fun _ => Except.error "quota") 0
        { config := { api_keys := ["k1", "k2"], current_key_index := 0, auto_rotate_on_quota_error := true },
          client := some "k1" } =
      ("Error analyzing screenshot: quota",
        { config := { api_keys := ["k1", "k2"], current_key_index := 0, auto_rotate_on_quota_error := true },
          client := some "k1" },
        ["k1", "k2", "k1"]) ∧
    ¬ (["k1", "k2", "k1"] : List String).Nodup ∧
    (["k1", "k2", "k1"] : List String).length = 3 := by
  refine ⟨?_, by decide, by decide⟩
  simp [analyze_screenshot_sync, try_rotate_key, rotate_to_next_key, is_auto_rotate_enabled,
    get_api_key, pyGet, is_quota_error, quota_indicators, substringIn]

/-- C7: after remove_api_key on a state satisfying the cursor invariant
whose key list is non-empty afterwards, the cursor is clamped back into
range, and the current-credential accessor succeeds (no raise), returning
the key at the clamped cursor, which is a member of the remaining key
list. -/
theorem c7_remove_clamps (c : GeminiConfig) (api_key : String)
    (h0 : 0 ≤ c.current_key_index)
    (h1 : c.api_keys = [] ∨ c.current_key_index < (c.api_keys.length : Int))
    (h2 : (remove_api_key c api_key).api_keys ≠ []) :
    0 ≤ (remove_api_key c api_key).current_key_index ∧
    (remove_api_key c api_key).current_key_index < ((remove_api_key c api_key).api_keys.length : Int) ∧
    get_api_key (remove_api_key c api_key) =
      (pyGet (remove_api_key c api_key).api_keys (remove_api_key c api_key).current_key_index).map
        (fun k => (k, remove_api_key c api_key)) ∧
    ((pyGet (remove_api_key c api_key).api_keys (remove_api_key c api_key).current_key_index).getD "") ∈
      (remove_api_key c api_key).api_keys := by
  have hrange : 0 ≤ (remove_api_key c api_key).current_key_index ∧
      (remove_api_key c api_key).current_key_index <
        ((remove_api_key c api_key).api_keys.length : Int) := by
    unfold remove_api_key at h2 ⊢
    by_cases hmem : api_key ∈ c.api_keys
    · rw [if_pos hmem] at h2 ⊢
      by_cases hle : ((c.api_keys.erase api_key).length : Int) ≤ c.current_key_index
      · rw [if_pos hle] at h2 ⊢
        have h3 : c.api_keys.erase api_key ≠ [] := h2
        have h4 : 0 < (c.api_keys.erase api_key).length := List.length_pos.mpr h3
        refine ⟨le_refl 0, ?_⟩
        show (0 : Int) < ((c.api_keys.erase api_key).length : Int)
        exact_mod_cast h4
      · rw [if_neg hle] at h2 ⊢
        exact ⟨h0, not_le.mp hle⟩
    · rw [if_neg hmem] at h2 ⊢
      rcases h1 with h1 | h1
      · exact absurd h1 h2
      · exact ⟨h0, h1⟩
  obtain ⟨ha, hb⟩ := hrange
  have heq := get_api_key_in_range (remove_api_key c api_key) h2 hb
  obtain ⟨k, hk, hmem⟩ :=
    pyGet_some_of_lt (remove_api_key c api_key).api_keys (remove_api_key c api_key).current_key_index ha hb
  refine ⟨ha, hb, heq, ?_⟩
  rw [hk]
  exact hmem

theorem c7_remove_clamps_witness :
    (0 : Int) ≤ 1 ∧
    (remove_api_key { api_keys := ["k1", "k2", "k3"], current_key_index := 1, auto_rotate_on_quota_error := true } "k1").api_keys ≠ [] ∧
    0 ≤ (remove_api_key { api_keys := ["k1", "k2", "k3"], current_key_index := 1, auto_rotate_on_quota_error := true } "k1").current_key_index ∧
    (remove_api_key { api_keys := ["k1", "k2", "k3"], current_key_index := 1, auto_rotate_on_quota_error := true } "k1").current_key_index <
      ((remove_api_key { api_keys := ["k1", "k2", "k3"], current_key_index := 1, auto_rotate_on_quota_error := true } "k1").api_keys.length : Int) :=
  ⟨by decide, by decide,
    (c7_remove_clamps { api_keys := ["k1", "k2", "k3"], current_key_index := 1, auto_rotate_on_quota_error := true } "k1"
      (by decide) (Or.inr (by decide)) (by decide)).1,
    (c7_remove_clamps { api_keys := ["k1", "k2", "k3"], current_key_index := 1, auto_rotate_on_quota_error := true } "k1"
      (by decide) (Or.inr (by decide)) (by decide)).2.1⟩
